import Mathlib

/-!
Shallow embedding of the signaling-relay server in `src/app.py`.

The server keeps two pieces of mutable state:
  * `connected_users` — a Python dict mapping a socket id (sid) to a small
    per-connection info dict `{"sid": sid}` (line 11, line 24);
  * the membership of the single room `chat_room` maintained by
    `join_room` / `leave_room` (lines 26, 39).

The three SocketIO handlers are modelled as pure functions over this state
that also return the list of outbound `emit` sends they perform.  Python
dicts are modelled as insertion-ordered association lists (assignment to an
existing key replaces in place; assignment to a fresh key appends).  A
SocketIO room is a set of sids, modelled as a duplicate-free-by-use list.
`emit(event, payload, room=r, skip_sid=x)` sends `(target, event, payload)`
to every member of `r` other than `x`.

JSON-like payloads are modelled by the inductive `Value`; the Python
expression `message.get('type')` succeeds exactly when `message` is a dict
and raises `AttributeError` otherwise, which `handle_signal` reflects by
returning `Except`.
-/

namespace VCall

abbrev Sid := String

/-- The per-connection info dict stored by `connected_users[sid] = {"sid": sid}`. -/
structure UserInfo where
  sid : Sid
deriving DecidableEq, Repr

/-- The `connected_users` dict: insertion-ordered association list. -/
abbrev Registry := List (Sid × UserInfo)

/-- Python `k in d` for the `connected_users` dict. -/
def dictContains (d : Registry) (k : Sid) : Bool :=
  d.any (fun p => p.1 == k)

/-- Python `d[k] = v`: replaces in place when the key exists, appends otherwise. -/
def dictInsert (d : Registry) (k : Sid) (v : UserInfo) : Registry :=
  if dictContains d k then d.map (fun p => if p.1 == k then (k, v) else p)
  else d ++ [(k, v)]

/-- Python `del d[k]` (total here; the caller guards with `k in d`). -/
def dictRemove (d : Registry) (k : Sid) : Registry :=
  d.filter (fun p => p.1 != k)

/-- JSON-like payload values carried by SocketIO messages. -/
inductive Value where
  | str : String → Value
  | int : Int → Value
  | bool : Bool → Value
  | vlist : List Value → Value
  | vdict : List (String × Value) → Value
deriving Repr

/-- Whether a payload is a Python dict (the only shape supporting `.get`). -/
def Value.isDict : Value → Bool
  | .vdict _ => true
  | _ => false

/-- Python `message.get(k)`: key lookup on a dict, `AttributeError` otherwise. -/
def pyGet (v : Value) (k : String) : Except String (Option Value) :=
  match v with
  | .vdict kvs => .ok ((kvs.find? (fun p => p.1 == k)).map Prod.snd)
  | _ => .error "AttributeError"

/-- One outbound `emit` performed by the server: target sid, event name, payload. -/
structure Send where
  target : Sid
  event : String
  payload : Value
deriving Repr

/-- The whole mutable server state: the registry and the room `chat_room`. -/
structure ServerState where
  connected_users : Registry
  chat_room : List Sid
deriving DecidableEq, Repr

/-- `join_room('chat_room')`: add the sid to the room member set (idempotent). -/
def join_room (room : List Sid) (sid : Sid) : List Sid :=
  if sid ∈ room then room else room ++ [sid]

/-- `leave_room('chat_room')`: remove the sid from the room member set (no-op if absent). -/
def leave_room (room : List Sid) (sid : Sid) : List Sid :=
  room.filter (fun t => t != sid)

/-- `emit(event, payload, room=members, skip_sid=skip)`: one send per member
except the skipped sid (if any). -/
def emitToRoom (members : List Sid) (skip : Option Sid) (event : String)
    (payload : Value) : List Send :=
  (match skip with
   | none => members
   | some x => members.filter (fun t => t != x)).map
    (fun t => ⟨t, event, payload⟩)

/-- `handle_connect` (app.py lines 20–27): store `{"sid": sid}` in
`connected_users`, then join the room.  Performs no sends and raises nothing. -/
def handle_connect (s : ServerState) (sid : Sid) : ServerState :=
  { connected_users := dictInsert s.connected_users sid ⟨sid⟩,
    chat_room := join_room s.chat_room sid }

/-- `handle_disconnect` (app.py lines 32–42): delete the registry entry if
present, leave the room, then emit `user-left` with payload `{"sid": sid}`
to the (already updated) room, with no skip sid. -/
def handle_disconnect (s : ServerState) (sid : Sid) : ServerState × List Send :=
  let users := if dictContains s.connected_users sid
               then dictRemove s.connected_users sid
               else s.connected_users
  let room := leave_room s.chat_room sid
  ( { connected_users := users, chat_room := room },
    emitToRoom room none "user-left" (Value.vdict [("sid", Value.str sid)]) )

/-- `handle_signal` (app.py lines 45–50): first evaluate `message.get('type')`
for the log line (raising `AttributeError` on non-dict payloads, before any
send), then emit `signal` with the original message to the room, skipping
the sender.  The server state is never touched. -/
def handle_signal (s : ServerState) (sid : Sid) (message : Value) :
    Except String (ServerState × List Send) :=
  match pyGet message "type" with
  | .error e => .error e
  | .ok _ => .ok (s, emitToRoom s.chat_room (some sid) "signal" message)

/-- The three transport events delivered to the handlers. -/
inductive Event where
  | connect (sid : Sid)
  | disconnect (sid : Sid)
  | signal (sid : Sid) (msg : Value)

/-- State transition of one event (an uncaught exception leaves state as-is). -/
def step (s : ServerState) (e : Event) : ServerState :=
  match e with
  | .connect sid => handle_connect s sid
  | .disconnect sid => (handle_disconnect s sid).1
  | .signal sid msg =>
      match handle_signal s sid msg with
      | .ok r => r.1
      | .error _ => s

/-- The empty initial state at process start (app.py line 11; empty room). -/
def initState : ServerState := ⟨[], []⟩

/-- State reached from process start by a sequence of transport events. -/
def run (es : List Event) : ServerState := es.foldl step initState

/-- Referential integrity: every room member is registered. -/
def RefIntegrity (s : ServerState) : Prop :=
  ∀ sid ∈ s.chat_room, dictContains s.connected_users sid = true

/-! ### Helper lemmas about the dict and room primitives -/

lemma dictContains_iff {d : Registry} {k : Sid} :
    dictContains d k = true ↔ ∃ p ∈ d, p.1 = k := by
  simp [dictContains, List.any_eq_true]

lemma dictContains_insert_self (d : Registry) (k : Sid) (v : UserInfo) :
    dictContains (dictInsert d k v) k = true := by
  unfold dictInsert
  split
  · rename_i h
    obtain ⟨p, hp, hpk⟩ := dictContains_iff.mp h
    exact dictContains_iff.mpr ⟨(k, v), List.mem_map.mpr ⟨p, hp, by simp [hpk]⟩, rfl⟩
  · exact dictContains_iff.mpr ⟨(k, v), by simp, rfl⟩

lemma dictContains_insert_of {d : Registry} {j : Sid} (k : Sid) (v : UserInfo)
    (h : dictContains d j = true) : dictContains (dictInsert d k v) j = true := by
  by_cases hk : j = k
  · subst hk; exact dictContains_insert_self d j v
  · obtain ⟨p, hp, hpj⟩ := dictContains_iff.mp h
    unfold dictInsert
    split
    · refine dictContains_iff.mpr ⟨p, List.mem_map.mpr ⟨p, hp, ?_⟩, hpj⟩
      simp [hpj, hk]
    · exact dictContains_iff.mpr ⟨p, by simp [hp], hpj⟩

lemma dictContains_remove_self (d : Registry) (k : Sid) :
    dictContains (dictRemove d k) k = false := by
  simp only [dictContains, dictRemove, List.any_filter]
  simp

lemma dictContains_remove_of {d : Registry} {j k : Sid} (hne : j ≠ k)
    (h : dictContains d j = true) : dictContains (dictRemove d k) j = true := by
  obtain ⟨p, hp, hpj⟩ := dictContains_iff.mp h
  refine dictContains_iff.mpr ⟨p, List.mem_filter.mpr ⟨hp, ?_⟩, hpj⟩
  simp [hpj, hne]

lemma mem_join_room {r : List Sid} {sid j : Sid} :
    j ∈ join_room r sid ↔ j ∈ r ∨ j = sid := by
  unfold join_room
  split <;> rename_i h
  · constructor
    · exact Or.inl
    · rintro (hj | rfl) <;> [exact hj; exact h]
  · simp

lemma mem_leave_room {r : List Sid} {sid j : Sid} :
    j ∈ leave_room r sid ↔ j ∈ r ∧ j ≠ sid := by
  simp [leave_room, List.mem_filter]

lemma join_room_idem (r : List Sid) (sid : Sid) :
    join_room (join_room r sid) sid = join_room r sid := by
  by_cases h : sid ∈ r
  · simp [join_room, h]
  · simp [join_room, h]

lemma leave_room_idem (r : List Sid) (sid : Sid) :
    leave_room (leave_room r sid) sid = leave_room r sid := by
  unfold leave_room
  rw [List.filter_filter]
  simp

lemma dictInsert_idem (d : Registry) (k : Sid) (v : UserInfo) :
    dictInsert (dictInsert d k v) k v = dictInsert d k v := by
  by_cases h : dictContains d k = true
  · have h1 : dictInsert d k v = d.map (fun p => if p.1 == k then (k, v) else p) := by
      simp [dictInsert, h]
    have h2 : dictContains (dictInsert d k v) k = true := dictContains_insert_self d k v
    rw [h1] at h2 ⊢
    simp only [dictInsert, h2, if_true]
    rw [List.map_map]
    refine List.map_congr_left ?_
    intro p _
    by_cases hpk : p.1 = k <;> simp [Function.comp, hpk]
  · have h1 : dictInsert d k v = d ++ [(k, v)] := by
      simp [dictInsert, h]
    have h2 : dictContains (dictInsert d k v) k = true := dictContains_insert_self d k v
    rw [h1] at h2 ⊢
    simp only [dictInsert, h2, if_true]
    rw [List.map_append]
    have hd : d.map (fun p => if p.1 == k then (k, v) else p) = d := by
      refine (List.map_congr_left ?_).trans (List.map_id _)
      intro p hp
      have : ¬ p.1 = k := by
        intro hpk
        exact absurd (dictContains_iff.mpr ⟨p, hp, hpk⟩) (by simp [h])
      simp [this]
    rw [hd]
    simp

lemma dictRemove_of_not_contains {d : Registry} {k : Sid}
    (h : dictContains d k = false) : dictRemove d k = d := by
  unfold dictRemove
  refine List.filter_eq_self.mpr ?_
  intro p hp
  by_contra hne
  simp only [bne_iff_ne, ne_eq, not_not] at hne
  exact absurd h (by simp [dictContains_iff.mpr ⟨p, hp, hne⟩])

lemma handle_signal_dict (s : ServerState) (sid : Sid) (kvs : List (String × Value)) :
    handle_signal s sid (Value.vdict kvs) =
      .ok (s, (s.chat_room.filter fun t => t != sid).map
        fun t => ⟨t, "signal", Value.vdict kvs⟩) := rfl

/-! ### Claim theorems -/

/-- C1: when the sender is a room member with N other members present, the
relay handler performs exactly one `signal` send per other member — the send
list is the member list minus the sender, mapped to sends — and no send
targets the sender. -/
theorem relay_excludes_sender (s : ServerState) (sid : Sid) (msg : Value)
    (hdict : msg.isDict = true) (hmem : sid ∈ s.chat_room) :
    handle_signal s sid msg =
      .ok (s, (s.chat_room.filter fun t => t != sid).map
        fun t => ⟨t, "signal", msg⟩) ∧
    ((s.chat_room.filter fun t => t != sid).map
      (fun t => (⟨t, "signal", msg⟩ : Send))).all
        (fun out => out.target != sid) = true := by
  cases msg with
  | vdict kvs =>
      refine ⟨handle_signal_dict s sid kvs, ?_⟩
      rw [List.all_eq_true]
      intro out hout
      obtain ⟨t, ht, rfl⟩ := List.mem_map.mp hout
      exact (List.mem_filter.mp ht).2
  | str a => simp [Value.isDict] at hdict
  | int a => simp [Value.isDict] at hdict
  | bool a => simp [Value.isDict] at hdict
  | vlist a => simp [Value.isDict] at hdict

/-- Witness for C1 at a concrete two-member room. -/
theorem relay_excludes_sender_witness :
    handle_signal ⟨[("A", ⟨"A"⟩), ("B", ⟨"B"⟩)], ["A", "B"]⟩ "A"
        (Value.vdict [("type", Value.str "offer")]) =
      .ok (⟨[("A", ⟨"A"⟩), ("B", ⟨"B"⟩)], ["A", "B"]⟩,
        ((["A", "B"] : List Sid).filter fun t => t != "A").map
          fun t => ⟨t, "signal", Value.vdict [("type", Value.str "offer")]⟩) ∧
    (((["A", "B"] : List Sid).filter fun t => t != "A").map
      (fun t => (⟨t, "signal", Value.vdict [("type", Value.str "offer")]⟩ : Send))).all
        (fun out => out.target != "A") = true :=
  relay_excludes_sender ⟨[("A", ⟨"A"⟩), ("B", ⟨"B"⟩)], ["A", "B"]⟩ "A"
    (Value.vdict [("type", Value.str "offer")]) rfl (by decide)

/-- C2 counterexample: sender "A" is not registered (it has disconnected),
yet a relay event from "A" is not dropped — with "B" still in the room the
handler performs one send, contradicting the claimed zero sends. -/
theorem relay_unregistered_sender_counterexample :
    dictContains ([("B", ⟨"B"⟩)] : Registry) "A" = false ∧
    ("A" ∈ (["B"] : List Sid)) = False ∧
    handle_signal ⟨[("B", ⟨"B"⟩)], ["B"]⟩ "A" (Value.vdict [("type", Value.str "offer")]) =
      .ok (⟨[("B", ⟨"B"⟩)], ["B"]⟩,
        [⟨"B", "signal", Value.vdict [("type", Value.str "offer")]⟩]) ∧
    ([(⟨"B", "signal", Value.vdict [("type", Value.str "offer")]⟩ : Send)]).length ≠ 0 := by
  refine ⟨rfl, ?_, rfl, by simp⟩
  simp

/-- C2 amended: the handler performs no registration or membership check; a
relay from an unregistered sender is forwarded to all current room members
(none of which is the sender), the state is unchanged, and no exception is
raised (for dict-shaped payloads). -/
theorem relay_unregistered_sender_forwards (s : ServerState) (sid : Sid) (msg : Value)
    (hdict : msg.isDict = true) (hreg : dictContains s.connected_users sid = false) :
    handle_signal s sid msg =
      .ok (s, (s.chat_room.filter fun t => t != sid).map
        fun t => ⟨t, "signal", msg⟩) := by
  cases msg with
  | vdict kvs => exact handle_signal_dict s sid kvs
  | str a => simp [Value.isDict] at hdict
  | int a => simp [Value.isDict] at hdict
  | bool a => simp [Value.isDict] at hdict
  | vlist a => simp [Value.isDict] at hdict

/-- Witness for the amended C2 with an unregistered sender and one member. -/
theorem relay_unregistered_sender_forwards_witness :
    handle_signal ⟨[("B", ⟨"B"⟩)], ["B"]⟩ "A" (Value.vdict []) =
      .ok (⟨[("B", ⟨"B"⟩)], ["B"]⟩,
        ((["B"] : List Sid).filter fun t => t != "A").map
          fun t => ⟨t, "signal", Value.vdict []⟩) :=
  relay_unregistered_sender_forwards ⟨[("B", ⟨"B"⟩)], ["B"]⟩ "A" (Value.vdict [])
    rfl rfl

/-- C3: every payload delivered by the relay handler is the very payload the
sender submitted — the delivered payload list is `msg` repeated, once per
target. -/
theorem relay_opacity (s : ServerState) (sid : Sid) (msg : Value)
    (s2 : ServerState) (sends : List Send)
    (h : handle_signal s sid msg = .ok (s2, sends)) :
    sends.map Send.payload = List.replicate sends.length msg := by
  cases msg with
  | vdict kvs =>
      rw [handle_signal_dict] at h
      obtain ⟨-, h2⟩ := Prod.mk.injEq .. ▸ (Except.ok.inj h)
      subst h2
      rw [List.map_map, List.length_map]
      induction (s.chat_room.filter fun t => t != sid) with
      | nil => rfl
      | cons a l ih => simp [ih, List.replicate_succ]
  | str a => exact absurd h (by simp [handle_signal, pyGet])
  | int a => exact absurd h (by simp [handle_signal, pyGet])
  | bool a => exact absurd h (by simp [handle_signal, pyGet])
  | vlist a => exact absurd h (by simp [handle_signal, pyGet])

/-- Witness for C3 at a concrete relay with one target. -/
theorem relay_opacity_witness :
    ([(⟨"B", "signal", Value.vdict [("type", Value.str "offer")]⟩ : Send)]).map Send.payload =
      List.replicate 1 (Value.vdict [("type", Value.str "offer")]) :=
  relay_opacity ⟨[("B", ⟨"B"⟩)], ["B"]⟩ "A" (Value.vdict [("type", Value.str "offer")])
    ⟨[("B", ⟨"B"⟩)], ["B"]⟩
    [⟨"B", "signal", Value.vdict [("type", Value.str "offer")]⟩] rfl

/-- C9: a relay whose payload is not a dict raises `AttributeError` at the
`message.get` logging read, before any send is performed. -/
theorem relay_nondict_payload_raises (s : ServerState) (sid : Sid) (msg : Value)
    (hdict : msg.isDict = false) :
    handle_signal s sid msg = .error "AttributeError" := by
  cases msg with
  | vdict kvs => simp [Value.isDict] at hdict
  | str a => rfl
  | int a => rfl
  | bool a => rfl
  | vlist a => rfl

/-- Witness for C9 with a string payload. -/
theorem relay_nondict_payload_raises_witness :
    handle_signal initState "A" (Value.str "hello") = .error "AttributeError" :=
  relay_nondict_payload_raises initState "A" (Value.str "hello") rfl

/-- C10: processing a relay event leaves the registry and the room member
set unchanged — the post-state of the signal step equals the pre-state, and
whenever the handler returns successfully the returned state is the input
state; only the send list is produced. -/
theorem relay_preserves_state (s : ServerState) (sid : Sid) (msg : Value) :
    step s (Event.signal sid msg) = s ∧
    ∀ s2 sends, handle_signal s sid msg = .ok (s2, sends) → s2 = s := by
  constructor
  · cases msg <;> rfl
  · intro s2 sends h
    cases msg with
    | vdict kvs =>
        rw [handle_signal_dict] at h
        exact ((Prod.mk.injEq .. ▸ Except.ok.inj h).1).symm
    | str a => exact absurd h (by simp [handle_signal, pyGet])
    | int a => exact absurd h (by simp [handle_signal, pyGet])
    | bool a => exact absurd h (by simp [handle_signal, pyGet])
    | vlist a => exact absurd h (by simp [handle_signal, pyGet])

/-- C4: disconnecting removes the sid from the room before the broadcast is
computed — the resulting room is the old room minus `c`, the `user-left`
sends go exactly to that remaining member list, and no send targets `c`. -/
theorem disconnect_excludes_self (s : ServerState) (c : Sid) :
    (handle_disconnect s c).1.chat_room = leave_room s.chat_room c ∧
    (handle_disconnect s c).2 =
      (leave_room s.chat_room c).map
        (fun t => ⟨t, "user-left", Value.vdict [("sid", Value.str c)]⟩) ∧
    ((handle_disconnect s c).2).all (fun out => out.target != c) = true := by
  refine ⟨rfl, rfl, ?_⟩
  rw [List.all_eq_true]
  intro out hout
  obtain ⟨t, ht, rfl⟩ := List.mem_map.mp hout
  simp only [bne_iff_ne, ne_eq]
  exact (mem_leave_room.mp ht).2

/-- C5 counterexample: "A" is already registered, yet `handle_connect` for
"A" succeeds silently (it is a total function with no error path — there is
no `DuplicateConnectionError` in the code) and leaves the state exactly as
after the first registration. -/
theorem duplicate_register_counterexample :
    dictContains ([("A", ⟨"A"⟩)] : Registry) "A" = true ∧
    handle_connect ⟨[("A", ⟨"A"⟩)], ["A"]⟩ "A" = ⟨[("A", ⟨"A"⟩)], ["A"]⟩ := by
  constructor <;> decide

/-- C5 amended: re-registering an already-registered connection id raises no
error (the handler is total); it overwrites the entry with the identical
value and re-joins idempotently, so the state equals the state after a
single registration — the registry is not corrupted. -/
theorem duplicate_register_idempotent (s : ServerState) (sid : Sid) :
    handle_connect (handle_connect s sid) sid = handle_connect s sid := by
  simp only [handle_connect]
  rw [dictInsert_idem, join_room_idem]

/-- C6: a second disconnect for the same sid is a no-op on the state: the
registry deletion is guarded by membership (absent key untouched) and
leaving a room one is not in changes nothing, so the state after two
disconnects equals the state after one; the handler is total, so no error
is raised. -/
theorem disconnect_twice_noop (s : ServerState) (sid : Sid) :
    (handle_disconnect (handle_disconnect s sid).1 sid).1 =
      (handle_disconnect s sid).1 := by
  by_cases h : dictContains s.connected_users sid = true
  · simp [handle_disconnect, h, dictContains_remove_self, leave_room_idem]
  · have h' : dictContains s.connected_users sid = false := by
      simpa using h
    simp [handle_disconnect, h', leave_room_idem]

/-- C8 counterexample: the departure notification's payload keys the departed
identifier under "sid", not "connection_id": at a concrete disconnect the
single send is `user-left` with payload `{"sid": "A"}`, looking up
"connection_id" in that payload yields nothing, and the payload differs from
`{"connection_id": "A"}`. -/
theorem user_left_payload_key_counterexample :
    (handle_disconnect ⟨[("A", ⟨"A"⟩), ("B", ⟨"B"⟩)], ["A", "B"]⟩ "A").2 =
      [⟨"B", "user-left", Value.vdict [("sid", Value.str "A")]⟩] ∧
    pyGet (Value.vdict [("sid", Value.str "A")]) "connection_id" = .ok none ∧
    Value.vdict [("sid", Value.str "A")] ≠
      Value.vdict [("connection_id", Value.str "A")] := by
  refine ⟨rfl, rfl, ?_⟩
  intro h
  have h2 := congrArg
    (fun v => match v with | Value.vdict kvs => kvs.map Prod.fst | _ => []) h
  simp at h2

/-- C8 amended: every disconnect broadcast uses the event name `user-left`
and carries the departed identifier under the key "sid": the send list is
the remaining member list mapped to `user-left` sends with payload
`{"sid": c}`. -/
theorem user_left_event_shape (s : ServerState) (c : Sid) :
    (handle_disconnect s c).2 =
      (leave_room s.chat_room c).map
        (fun t => ⟨t, "user-left", Value.vdict [("sid", Value.str c)]⟩) := rfl

/-- Referential integrity is preserved by every single event step. -/
lemma refIntegrity_step {s : ServerState} (e : Event) (h : RefIntegrity s) :
    RefIntegrity (step s e) := by
  cases e with
  | connect c =>
      intro j hj
      simp only [step, handle_connect] at hj ⊢
      rcases mem_join_room.mp hj with hjr | rfl
      · exact dictContains_insert_of c ⟨c⟩ (h j hjr)
      · exact dictContains_insert_self s.connected_users j ⟨j⟩
  | disconnect c =>
      intro j hj
      simp only [step, handle_disconnect] at hj ⊢
      obtain ⟨hjr, hne⟩ := mem_leave_room.mp hj
      by_cases hc : dictContains s.connected_users c = true
      · simp only [hc, if_true]
        exact dictContains_remove_of hne (h j hjr)
      · simp only [hc, if_false]
        exact h j hjr
  | signal c m =>
      have hstep : step s (Event.signal c m) = s := by cases m <;> rfl
      rw [hstep]
      exact h

/-- Referential integrity is preserved along any event sequence. -/
lemma refIntegrity_foldl (es : List Event) (s : ServerState) (h : RefIntegrity s) :
    RefIntegrity (es.foldl step s) := by
  induction es generalizing s with
  | nil => exact h
  | cons e es ih => exact ih (step s e) (refIntegrity_step e h)

/-- C7: in every state reachable from the empty initial state by connect,
disconnect and signal events, every member of the room is registered in
`connected_users`. -/
theorem referential_integrity (es : List Event) (sid : Sid)
    (h : sid ∈ (run es).chat_room) :
    dictContains (run es).connected_users sid = true := by
  have hinv : RefIntegrity (run es) := by
    refine refIntegrity_foldl es initState ?_
    intro j hj
    simp [initState] at hj
  exact hinv sid h

/-- Witness for C7 along the one-event trace connecting "A". -/
theorem referential_integrity_witness :
    dictContains (run [Event.connect "A"]).connected_users "A" = true :=
  referential_integrity [Event.connect "A"] "A" (by decide)

/-- Witness for C10 at a concrete state and relay event. -/
theorem relay_preserves_state_witness :
    step ⟨[("B", ⟨"B"⟩)], ["B"]⟩ (Event.signal "A" (Value.vdict [])) =
      ⟨[("B", ⟨"B"⟩)], ["B"]⟩ ∧
    (⟨[("B", ⟨"B"⟩)], ["B"]⟩ : ServerState) = ⟨[("B", ⟨"B"⟩)], ["B"]⟩ :=
  ⟨(relay_preserves_state ⟨[("B", ⟨"B"⟩)], ["B"]⟩ "A" (Value.vdict [])).1,
   (relay_preserves_state ⟨[("B", ⟨"B"⟩)], ["B"]⟩ "A" (Value.vdict [])).2
     ⟨[("B", ⟨"B"⟩)], ["B"]⟩ [⟨"B", "signal", Value.vdict []⟩] rfl⟩

end VCall
